import Mathlib

/-!
Verification of the forecast TUI core (navigation state machine and forecast
data normalization) against its natural-language specification.

The Go source is shallowly embedded below.  Pure functions become Lean
functions; the Elm-style update loop becomes explicit state passing on a
`Model` structure; calls that can terminate the process (`log.Fatal`) or
panic (out-of-range indexing, failed type assertions) are modelled by
`Option`-returning functions where `none` marks abnormal termination.
Network fetches are modelled by an oracle parameter
`fetch : String → String → Option SiteData` (`none` = fetch or decode
failure, which the code answers with `log.Fatal`).
-/

namespace Fc

/-! ## Data model (internal/data: structs `Day`, `Night`, `Hourly`,
`Forecast`, `Period`, `Location`, `Info`, `Site`, `SiteData`).
All upstream numeric sub-fields are opaque strings; Go zero values are the
empty string / empty list, reflected here as field defaults. -/

structure Day where
  uv : String := ""
  precipitation : String := ""
  humidity : String := ""
  gustSpeed : String := ""
  temperature : String := ""
  feelsLikeTemp : String := ""
  deriving DecidableEq, Repr

structure Night where
  precipitation : String := ""
  humidity : String := ""
  gustSpeed : String := ""
  temperature : String := ""
  feelsLikeTemp : String := ""
  deriving DecidableEq, Repr

structure Hourly where
  uv : String := ""
  precipitation : String := ""
  humidity : String := ""
  gustSpeed : String := ""
  temperature : String := ""
  feelsLikeTemp : String := ""
  deriving DecidableEq, Repr

structure Forecast where
  time : String := ""
  weatherCode : String := ""
  visibility : String := ""
  windDirection : String := ""
  windSpeed : String := ""
  day : Day := {}
  night : Night := {}
  hourly : Hourly := {}
  deriving DecidableEq, Repr

structure Period where
  ptype : String := ""
  date : String := ""
  forecasts : List Forecast := []
  deriving DecidableEq, Repr

structure Location where
  id : String := ""
  lat : String := ""
  lon : String := ""
  name : String := ""
  country : String := ""
  continent : String := ""
  periods : List Period := []
  deriving DecidableEq, Repr

structure Info where
  date : String := ""
  length : String := ""
  location : Location := {}
  deriving DecidableEq, Repr

structure Site where
  info : Info := {}
  deriving DecidableEq, Repr

structure SiteData where
  site : Site := {}
  deriving DecidableEq, Repr

/-! ## Resolutions (main.go: `type resolution string` and its two constants). -/

def dailyResolution : String := "daily"

def threeHourlyResolution : String := "3hourly"

/-! ## The flattened record (`forecastData` struct) and the normalizer
(`getForecastData`, src/unnamed/part_002 lines 137-180).  The Go function
takes the whole `model` but reads only `forecastResolution`; it is embedded
on that field directly. -/

structure forecastData where
  time : String := ""
  weatherCode : String := ""
  uv : String := ""
  windDirection : String := ""
  windSpeed : String := ""
  visibility : String := ""
  precipitation : String := ""
  humidity : String := ""
  gustSpeed : String := ""
  temperature : String := ""
  feelsLikeTemp : String := ""
  deriving DecidableEq, Repr

def getForecastData (res : String) (f : Forecast) : forecastData :=
  if res == dailyResolution && f.time == "Day" then
    { time := f.time
      weatherCode := f.weatherCode
      windDirection := f.windDirection
      windSpeed := f.windSpeed
      visibility := f.visibility
      uv := f.day.uv
      precipitation := f.day.precipitation
      humidity := f.day.humidity
      gustSpeed := f.day.gustSpeed
      temperature := f.day.temperature
      feelsLikeTemp := f.day.feelsLikeTemp }
  else if res == dailyResolution && f.time == "Night" then
    { time := f.time
      weatherCode := f.weatherCode
      windDirection := f.windDirection
      windSpeed := f.windSpeed
      visibility := f.visibility
      precipitation := f.night.precipitation
      humidity := f.night.humidity
      gustSpeed := f.night.gustSpeed
      temperature := f.night.temperature
      feelsLikeTemp := f.night.feelsLikeTemp }
  else
    { time := f.time
      weatherCode := f.weatherCode
      windDirection := f.windDirection
      windSpeed := f.windSpeed
      visibility := f.visibility
      uv := f.hourly.uv
      precipitation := f.hourly.precipitation
      humidity := f.hourly.humidity
      gustSpeed := f.hourly.gustSpeed
      temperature := f.hourly.temperature
      feelsLikeTemp := f.hourly.feelsLikeTemp }

/-! ## Weather code table (internal/data `WeatherCodes`); Go map lookup of
a missing key yields the zero value "". -/

def weatherCodes : List (String × String) :=
  [("0", "Clear night"), ("1", "Sunny day"), ("2", "Partly cloudy"),
   ("3", "Partly cloudy"), ("4", "Not used"), ("5", "Mist"), ("6", "Fog"),
   ("7", "Cloudy"), ("8", "Overcast"), ("9", "Light rain shower"),
   ("10", "Light rain shower"), ("11", "Drizzle"), ("12", "Light rain"),
   ("13", "Heavy rain shower"), ("14", "Heavy rain shower"),
   ("15", "Heavy rain"), ("16", "Sleet shower"), ("17", "Sleet shower"),
   ("18", "Sleet"), ("19", "Hail shower"), ("20", "Hail shower"),
   ("21", "Hail"), ("22", "Light snow shower"), ("23", "Light snow shower"),
   ("24", "Light snow"), ("25", "Heavy snow shower"),
   ("26", "Heavy snow shower"), ("27", "Heavy snow"),
   ("28", "Thunder shower"), ("29", "Thunder shower"), ("30", "Thunder")]

def weatherCodeDesc (code : String) : String :=
  (weatherCodes.lookup code).getD ""

/-! ## strconv.Atoi (Go stdlib).  Modelled from the Go standard library:
optional sign followed by at least one decimal digit; the value must fit a
64-bit signed integer, otherwise an error is returned. -/

def digitsToNat : List Char → Option Nat
  | [] => some 0
  | c :: cs =>
    if c.isDigit then
      (digitsToNat cs).map (fun n => (c.toNat - '0'.toNat) * 10 ^ cs.length + n)
    else none

def atoi (s : String) : Option Int :=
  match s.toList with
  | [] => none
  | '+' :: ds =>
    if ds.isEmpty then none else
      (digitsToNat ds).bind (fun n =>
        if (n : Int) ≤ 9223372036854775807 then some (n : Int) else none)
  | '-' :: ds =>
    if ds.isEmpty then none else
      (digitsToNat ds).bind (fun n =>
        if (n : Int) ≤ 9223372036854775808 then some (-(n : Int)) else none)
  | ds =>
      (digitsToNat ds).bind (fun n =>
        if (n : Int) ≤ 9223372036854775807 then some (n : Int) else none)

/-! ## fmt.Sprintf("%02d:00", hours) (Go stdlib): decimal rendering
zero-padded to a minimum width of two (the sign counts toward the width). -/

def pad2 (s : String) : String := if s.length < 2 then "0" ++ s else s

def fmt02 (n : Int) : String :=
  if n < 0 then "-" ++ toString n.natAbs else pad2 (toString n.toNat)

/-- The minutes-past-midnight to 24-hour clock conversion applied inside
`getForecastListItems` (src/unnamed/part_002 lines 330-339): only under the
three-hourly resolution is the label parsed and converted; `none` models
the `log.Fatal` on an unparsable label.  Go's `/` on int truncates toward
zero, matched by `Int.tdiv`. -/
def convertTime (res t : String) : Option String :=
  if res == threeHourlyResolution then
    (atoi t).map (fun m => fmt02 (Int.tdiv m 60) ++ ":00")
  else some t

/-! ## time.Parse("2006-01-02Z", ...) and Format("Mon, 02 Jan 2006")
(Go stdlib).  Modelled from the Go standard library: the layout demands
four year digits, a dash, two month digits, a dash, two day digits and a
literal 'Z'; month and day are range-checked (Gregorian, leap years). -/

structure Date where
  year : Nat
  month : Nat
  day : Nat
  deriving DecidableEq, Repr

def isLeapYear (y : Nat) : Bool := y % 4 == 0 && (y % 100 != 0 || y % 400 == 0)

def daysInMonth (y m : Nat) : Nat :=
  if m == 2 then (if isLeapYear y then 29 else 28)
  else if m == 4 || m == 6 || m == 9 || m == 11 then 30
  else 31

def parseDateZ (s : String) : Option Date :=
  match s.toList with
  | [y1, y2, y3, y4, '-', m1, m2, '-', d1, d2, 'Z'] =>
    if y1.isDigit && y2.isDigit && y3.isDigit && y4.isDigit &&
       m1.isDigit && m2.isDigit && d1.isDigit && d2.isDigit then
      let y := ((y1.toNat - '0'.toNat) * 1000 + (y2.toNat - '0'.toNat) * 100 +
                (y3.toNat - '0'.toNat) * 10 + (y4.toNat - '0'.toNat))
      let m := (m1.toNat - '0'.toNat) * 10 + (m2.toNat - '0'.toNat)
      let d := (d1.toNat - '0'.toNat) * 10 + (d2.toNat - '0'.toNat)
      if 1 ≤ m && m ≤ 12 && 1 ≤ d && d ≤ daysInMonth y m then
        some ⟨y, m, d⟩
      else none
    else none
  | _ => none

def weekdayNames : List String := ["Sun", "Mon", "Tue", "Wed", "Thu", "Fri", "Sat"]

def monthNames : List String :=
  ["Jan", "Feb", "Mar", "Apr", "May", "Jun", "Jul", "Aug", "Sep", "Oct", "Nov", "Dec"]

/-- Day of the week (0 = Sunday) of a proleptic Gregorian date, Sakamoto's
method; agrees with Go's `time` package for CE dates. -/
def dayOfWeek (y m d : Nat) : Nat :=
  let t := [0, 3, 2, 5, 0, 3, 5, 1, 4, 6, 2, 4]
  let y := if m < 3 then y - 1 else y
  ((y + y / 4 + y / 400 + t.getD (m - 1) 0 + d) - y / 100) % 7

def pad4 (s : String) : String :=
  String.mk (List.replicate (4 - s.length) '0') ++ s

def formatDate (d : Date) : String :=
  weekdayNames.getD (dayOfWeek d.year d.month d.day) "" ++ ", " ++
    pad2 (toString d.day) ++ " " ++ monthNames.getD (d.month - 1) "" ++ " " ++
    pad4 (toString d.year)

/-! ## The list items (`forecastItem` struct and `getForecastListItems`,
src/unnamed/part_002 lines 311-350). -/

structure forecastItem where
  title : String := ""
  desc : String := ""
  periodIndex : Nat := 0
  forecastIndex : Nat := 0
  deriving DecidableEq, Repr

/-- One iteration of the inner loop of `getForecastListItems`: normalize the
raw forecast via `getForecastData`, build the description and title; `none`
models the `log.Fatal` on an unconvertible three-hourly time label. -/
def forecastRow (res : String) (d : Date) (pIdx fIdx : Nat) (f : Forecast) :
    Option forecastItem :=
  let fd := getForecastData res f
  let desc := weatherCodeDesc fd.weatherCode ++ " | " ++ fd.temperature ++ "°C"
      ++ " | " ++ fd.windSpeed ++ "mph"
  (convertTime res fd.time).map (fun ft =>
    { title := formatDate d ++ " (" ++ ft ++ ")", desc := desc,
      periodIndex := pIdx, forecastIndex := fIdx })

/-- Index-tracking traversal of one period's forecasts, failing (process
abort) as soon as one row fails. -/
def mapIdxO (f : Nat → Forecast → Option forecastItem) :
    Nat → List Forecast → Option (List forecastItem)
  | _, [] => some []
  | i, a :: as =>
    match f i a with
    | none => none
    | some b => (mapIdxO f (i + 1) as).map (fun bs => b :: bs)

/-- The nested loop of `getForecastListItems`: per period, parse the date
(`log.Fatal` on failure = `none`), then walk its forecasts; items are
accumulated by appending, i.e. in period-then-forecast order. -/
def itemsFrom (res : String) : Nat → List Period → Option (List forecastItem)
  | _, [] => some []
  | pIdx, p :: ps =>
    match parseDateZ p.date with
    | none => none
    | some d =>
      match mapIdxO (forecastRow res d pIdx) 0 p.forecasts with
      | none => none
      | some items =>
        match itemsFrom res (pIdx + 1) ps with
        | none => none
        | some rest => some (items ++ rest)

def getForecastListItemsOf (res : String) (periods : List Period) :
    Option (List forecastItem) :=
  itemsFrom res 0 periods

/-! ## Location rows (main.go `location` struct, `extractRows`,
`Rows.Less`).  A `table.Row` is a list of strings `[name, id, region]`;
rows are ordered by their name (index 0) only, case-sensitively.  Go's
`sort.Sort` and `slices.Sort` are unstable; the executable model below uses
a stable insertion sort, and the tie-order question is treated separately
through the relational contract `sortContract` (sorted permutation), which
is all `sort.Sort` documents. -/

structure location where
  id : String := ""
  name : String := ""
  region : String := ""
  deriving DecidableEq, Repr

def rowOf (l : location) : List String := [l.name, l.id, l.region]

def rowName (r : List String) : String := r.getD 0 ""

/-- Go's `<` on strings compares byte sequences; for valid UTF-8 that
coincides with code-point lexicographic order, computed here on the
character lists. -/
def goListLE : List Char → List Char → Bool
  | [], _ => true
  | _ :: _, [] => false
  | a :: as, b :: bs =>
    if a.toNat < b.toNat then true
    else if b.toNat < a.toNat then false
    else goListLE as bs

def goStrLE (a b : String) : Prop := goListLE a.toList b.toList = true

instance : DecidableRel goStrLE := fun a b => by
  unfold goStrLE; infer_instance

def nameLE (a b : List String) : Prop := goStrLE (rowName a) (rowName b)

instance : DecidableRel nameLE := fun a b => by
  unfold nameLE; infer_instance

/-- `placenames` global after `extractRows` (main.go lines 140-145):
every location's name, sorted ascending. -/
def placenamesOf (ls : List location) : List String :=
  List.insertionSort goStrLE (ls.map location.name)

/-- `rows` global after `extractRows` (main.go lines 140-148): one
`[name, id, region]` row per location, sorted by name. -/
def rowsOf (ls : List location) : List (List String) :=
  List.insertionSort nameLE (ls.map rowOf)

/-- Postcondition Go's `sort.Sort` guarantees for `Rows` (`Rows.Less`
compares names with `<`): the output is a permutation of the input whose
names are nondecreasing.  Stability is deliberately not part of the
contract (`sort.Sort` is documented as not stable). -/
def sortContract (inp out : List (List String)) : Prop :=
  out.Perm inp ∧ List.Pairwise nameLE out

/-! ## The fuzzy matcher (github.com/lithammer/fuzzysearch).  Modelled from
the library: `MatchFold` scans the target left to right consuming source
runes case-insensitively (subsequence matching); `RankFindFold` pairs each
matching target with its Levenshtein distance from the source and its index
in the target list; `Ranks` sort ascending by distance. -/

def matchFold : List Char → List Char → Bool
  | [], _ => true
  | _ :: _, [] => false
  | a :: s, b :: t =>
    if a.toLower == b.toLower then matchFold s t else matchFold (a :: s) t

def levNextAux (a : Char) : List Char → List Nat → Nat → List Nat
  | [], _, _ => []
  | c :: cs, p0 :: p1 :: ps, w =>
    let v := min (min (p1 + 1) (w + 1)) (p0 + (if a == c then 0 else 1))
    v :: levNextAux a cs (p1 :: ps) v
  | _ :: _, _, _ => []

def levNextRow (a : Char) (t : List Char) (prev : List Nat) : List Nat :=
  let w0 := prev.headD 0 + 1
  w0 :: levNextAux a t prev w0

/-- Levenshtein edit distance (dynamic-programming rows), as computed by
the fuzzysearch library's `LevenshteinDistance`. -/
def lev (s t : List Char) : Nat :=
  (s.foldl (fun row a => levNextRow a t row) (List.range (t.length + 1))).getLastD 0

structure rank where
  source : String := ""
  target : String := ""
  distance : Nat := 0
  originalIndex : Nat := 0
  deriving DecidableEq, Repr

def distLE (a b : rank) : Prop := a.distance ≤ b.distance

instance : DecidableRel distLE := fun a b => by
  unfold distLE; infer_instance

def rankFindFoldAux (q : String) : Nat → List String → List rank
  | _, [] => []
  | i, t :: ts =>
    if matchFold q.toList t.toList then
      { source := q, target := t, distance := lev q.toList t.toList,
        originalIndex := i } :: rankFindFoldAux q (i + 1) ts
    else rankFindFoldAux q (i + 1) ts

def rankFindFold (q : String) (targets : List String) : List rank :=
  rankFindFoldAux q 0 targets

def sortedRanks (q : String) (targets : List String) : List rank :=
  List.insertionSort distLE (rankFindFold q targets)

/-- The `default:` branch of `updateSearch` (main.go lines 354-371): a
non-empty input is fuzzy-matched against `placenames`, matches are sorted
by rank and mapped back through the global `rows`; an empty input restores
all rows. -/
def filterRows (input : String) (pns : List String) (rws : List (List String)) :
    List (List String) :=
  if input.length > 0 then
    (sortedRanks input pns).map (fun rk => rws.getD rk.originalIndex [])
  else rws

/-! ## The controller (main.go `model`, `Update`, `updateSearch`,
`updateLocation`, `updateForecast`).  `tea.KeyMsg` is identified by its
`String()`; rendering state (styles, sizes) is kept only where a claim can
observe it.  The collaborating bubbles widgets are modelled from the
library: a focused textinput appends printable single-rune keys to its
value (up to `CharLimit` 156) and ignores "enter"/"esc"; a focused table
moves its cursor on "up"/"down" and `SelectedRow` is an in-range lookup
returning nothing on an empty table; the list moves its index on
"up"/"down" and `SelectedItem` is an in-range lookup.  `esc` does nothing
to the list since its `Quit` binding is unbound (setupList). -/

inductive Msg where
  | key (s : String)
  | windowSize (w h : Int)
  deriving DecidableEq, Repr

structure Globals where
  placenames : List String := []
  rows : List (List String) := []
  deriving DecidableEq, Repr

structure Model where
  width : Int := 0
  height : Int := 0
  textFocused : Bool := true
  textValue : String := ""
  tableFocused : Bool := false
  tableRows : List (List String) := []
  tableCursor : Nat := 0
  listItems : List forecastItem := []
  listIndex : Nat := 0
  listTitle : String := ""
  siteData : SiteData := {}
  locationChosen : Bool := false
  locationId : String := ""
  forecastResolution : String := dailyResolution
  forecastChosen : Bool := false
  forecastData : forecastData := {}
  deriving DecidableEq, Repr

/-- Fetch-and-decode oracle standing for `getSiteData`'s collaborators
(`data.Fetch` + `json.Unmarshal`); `none` makes `getSiteData` hit
`log.Fatal`. -/
def SiteFetch : Type := String → String → Option SiteData

def isCharKey (s : String) : Bool := s.length == 1

def textinputUpd (msg : Msg) (focused : Bool) (v : String) : String :=
  match msg with
  | .key s => if focused && isCharKey s && v.length < 156 then v ++ s else v
  | _ => v

def cursorUpd (msg : Msg) (focused : Bool) (n c : Nat) : Nat :=
  match msg with
  | .key s =>
    if s = "up" then (if focused then c - 1 else c)
    else if s = "down" then (if focused then min (c + 1) (n - 1) else c)
    else c
  | _ => c

def selectedRow (m : Model) : Option (List String) :=
  m.tableRows.get? m.tableCursor

def getForecastListItems (m : Model) : Option (List forecastItem) :=
  itemsFrom m.forecastResolution 0 m.siteData.site.info.location.periods

/-- `updateSearch` (main.go lines 320-377 / part_002 lines 380-439).
`none` models a panic (`SelectedRow()[1]` on an empty or short row) or the
`log.Fatal`s inside `getSiteData` and `getForecastListItems`. -/
def updateSearch (g : Globals) (fetch : SiteFetch) (msg : Msg) (m : Model) :
    Option Model :=
  let m := { m with
    textValue := textinputUpd msg m.textFocused m.textValue,
    tableCursor := cursorUpd msg m.tableFocused m.tableRows.length m.tableCursor }
  match msg with
  | .key s =>
    if s = "enter" then
      if m.textFocused then
        some { m with textFocused := false, tableFocused := true }
      else if m.tableFocused then
        match selectedRow m with
        | none => none
        | some row =>
          match row.get? 1 with
          | none => none
          | some id =>
            match fetch id m.forecastResolution with
            | none => none
            | some sd =>
              let m := { m with locationChosen := true, locationId := id,
                                siteData := sd }
              match getForecastListItems m with
              | none => none
              | some its =>
                let title := sd.site.info.location.name ++ ", " ++
                  sd.site.info.location.country
                some { m with listItems := its, listTitle := title }
      else some m
    else if s = "esc" then
      if m.tableFocused then
        some { m with tableFocused := false, textFocused := true }
      else some m
    else
      if m.textValue.length > 0 then
        some { m with tableRows := filterRows m.textValue g.placenames g.rows }
      else some { m with tableRows := g.rows }
  | _ => some m

/-- `updateLocation` (main.go lines 379-412 / part_002 lines 441-477).
`none` models the type-assertion panic on an empty list selection, the
period/forecast indexing panic, or `getSiteData`'s `log.Fatal`. -/
def updateLocation (fetch : SiteFetch) (msg : Msg) (m : Model) : Option Model :=
  let m := { m with
    listIndex := cursorUpd msg true m.listItems.length m.listIndex }
  match msg with
  | .key s =>
    if s = "enter" then
      let m := { m with forecastChosen := true }
      match m.listItems.get? m.listIndex with
      | none => none
      | some item =>
        match (m.siteData.site.info.location.periods.get? item.periodIndex).bind
            (fun p => p.forecasts.get? item.forecastIndex) with
        | none => none
        | some f =>
          some { m with forecastData := getForecastData m.forecastResolution f }
    else if s = "r" then
      let res := if m.forecastResolution = dailyResolution then threeHourlyResolution
                 else dailyResolution
      match fetch m.locationId res with
      | none => none
      | some sd =>
        let m := { m with forecastResolution := res, siteData := sd }
        match getForecastListItems m with
        | none => none
        | some its => some { m with listItems := its }
    else if s = "esc" then some { m with locationChosen := false }
    else some m
  | _ => some m

/-- `updateForecast` (main.go lines 414-424). -/
def updateForecast (msg : Msg) (m : Model) : Option Model :=
  match msg with
  | .key s =>
    if s = "esc" then some { m with forecastChosen := false } else some m
  | _ => some m

/-- The single dispatch point at the end of `model.Update` (main.go lines
311-317): exactly one of the three state handlers runs, chosen by the two
boolean flags. -/
def dispatch (g : Globals) (fetch : SiteFetch) (msg : Msg) (m : Model) :
    Option Model :=
  if m.forecastChosen then updateForecast msg m
  else if m.locationChosen then updateLocation fetch msg m
  else updateSearch g fetch msg m

/-- `model.Update` (main.go lines 296-318): ctrl+c returns immediately
(with `tea.Quit`, state unchanged); a window-size message updates the
stored dimensions; then the active handler runs via `dispatch`. -/
def Update (g : Globals) (fetch : SiteFetch) (msg : Msg) (m : Model) :
    Option Model :=
  match msg with
  | .key s =>
    if s = "ctrl+c" then some m else dispatch g fetch (Msg.key s) m
  | .windowSize w h =>
    dispatch g fetch (Msg.windowSize w h) { m with width := w, height := h }

/-- `initialModel` (main.go lines 200-220): text input focused, table
holding the full row set, daily resolution. -/
def initialModel (g : Globals) : Model :=
  { tableRows := g.rows }

/-- States reachable by dispatching input events from the initial state;
a `none` step is process termination, after which nothing is reachable. -/
inductive Reachable (g : Globals) (fetch : SiteFetch) : Model → Prop where
  | init : Reachable g fetch (initialModel g)
  | step {m m' : Model} {msg : Msg} : Reachable g fetch m →
      Update g fetch msg m = some m' → Reachable g fetch m'

/-! ## Helper lemmas about the normalizer and time conversion. -/

theorem getForecastData_time (res : String) (f : Forecast) :
    (getForecastData res f).time = f.time := by
  unfold getForecastData
  split
  · rfl
  · split
    · rfl
    · rfl

theorem convertTime_threeHourly_isSome (t : String) :
    (convertTime threeHourlyResolution t).isSome = (atoi t).isSome := by
  unfold convertTime
  simp

/-! ## Claim theorems. -/

/-- C1: normalization under Daily resolution with timeLabel "Day" draws
`uv` and the five variable fields from the Day shape and is independent of
the Night-only fields; under Daily/"Night" the returned `uv` is empty and
the five fields come from the Night shape; under ThreeHourly all six come
from the Hourly shape. -/
theorem C1_normalize_field_selection (f : Forecast) :
    (f.time = "Day" →
      (∀ n : Night, getForecastData dailyResolution { f with night := n } =
        getForecastData dailyResolution f) ∧
      (getForecastData dailyResolution f).uv = f.day.uv ∧
      (getForecastData dailyResolution f).precipitation = f.day.precipitation ∧
      (getForecastData dailyResolution f).humidity = f.day.humidity ∧
      (getForecastData dailyResolution f).gustSpeed = f.day.gustSpeed ∧
      (getForecastData dailyResolution f).temperature = f.day.temperature ∧
      (getForecastData dailyResolution f).feelsLikeTemp = f.day.feelsLikeTemp) ∧
    (f.time = "Night" →
      (getForecastData dailyResolution f).uv = "" ∧
      (getForecastData dailyResolution f).precipitation = f.night.precipitation ∧
      (getForecastData dailyResolution f).humidity = f.night.humidity ∧
      (getForecastData dailyResolution f).gustSpeed = f.night.gustSpeed ∧
      (getForecastData dailyResolution f).temperature = f.night.temperature ∧
      (getForecastData dailyResolution f).feelsLikeTemp = f.night.feelsLikeTemp) ∧
    ((getForecastData threeHourlyResolution f).uv = f.hourly.uv ∧
      (getForecastData threeHourlyResolution f).precipitation = f.hourly.precipitation ∧
      (getForecastData threeHourlyResolution f).humidity = f.hourly.humidity ∧
      (getForecastData threeHourlyResolution f).gustSpeed = f.hourly.gustSpeed ∧
      (getForecastData threeHourlyResolution f).temperature = f.hourly.temperature ∧
      (getForecastData threeHourlyResolution f).feelsLikeTemp = f.hourly.feelsLikeTemp) := by
  refine ⟨fun hd => ?_, fun hn => ?_, ?_⟩
  · constructor
    · intro n
      simp [getForecastData, hd]
    · simp [getForecastData, hd]
  · simp [getForecastData, hn]
  · simp [getForecastData, dailyResolution, threeHourlyResolution]

def dayShapeEx : Forecast :=
  { time := "Day", weatherCode := "w", visibility := "v", windDirection := "wd",
    windSpeed := "ws",
    day := { uv := "du", precipitation := "dp", humidity := "dh",
             gustSpeed := "dg", temperature := "dt", feelsLikeTemp := "df" },
    night := { precipitation := "np", humidity := "nh", gustSpeed := "ng",
               temperature := "nt", feelsLikeTemp := "nf" },
    hourly := { uv := "hu", precipitation := "hp", humidity := "hh",
                gustSpeed := "hg", temperature := "ht", feelsLikeTemp := "hf" } }

def nightShapeEx : Forecast := { dayShapeEx with time := "Night" }

/-- C1 witness: the field-selection theorem evaluated on concrete Day- and
Night-labelled records. -/
theorem C1_normalize_field_selection_witness :
    getForecastData dailyResolution { dayShapeEx with night := {} } =
      getForecastData dailyResolution dayShapeEx ∧
    (getForecastData dailyResolution dayShapeEx).uv = dayShapeEx.day.uv ∧
    (getForecastData dailyResolution nightShapeEx).uv = "" ∧
    (getForecastData threeHourlyResolution dayShapeEx).uv = dayShapeEx.hourly.uv :=
  ⟨((C1_normalize_field_selection dayShapeEx).1 rfl).1 {},
   ((C1_normalize_field_selection dayShapeEx).1 rfl).2.1,
   ((C1_normalize_field_selection nightShapeEx).2.1 rfl).1,
   (C1_normalize_field_selection dayShapeEx).2.2.1⟩

def oddLabelEx : Forecast := { dayShapeEx with time := "Dusk" }

/-- C2 counterexample: under Daily resolution a timeLabel that is neither
"Day" nor "Night" does not make normalization fail — `getForecastData`
falls through to its final branch and silently returns a record populated
from the Hourly shape (no `UnrecognizedForecastShapeError` exists in the
code). -/
theorem C2_counterexample :
    getForecastData dailyResolution oddLabelEx =
      { time := "Dusk", weatherCode := "w", uv := "hu", windDirection := "wd",
        windSpeed := "ws", visibility := "v", precipitation := "hp",
        humidity := "hh", gustSpeed := "hg", temperature := "ht",
        feelsLikeTemp := "hf" } := by decide

theorem mapIdxO_atoi_sound (res : String) (d : Date) (pIdx : Nat) :
    ∀ (k : Nat) (fs : List Forecast) (l : List forecastItem),
      mapIdxO (forecastRow res d pIdx) k fs = some l →
      ∀ f ∈ fs, (convertTime res f.time).isSome = true
  | _, [], _, _, _, hf => absurd hf (List.not_mem_nil _)
  | k, a :: as, l, h, f, hf => by
    unfold mapIdxO at h
    cases hr : forecastRow res d pIdx k a with
    | none => rw [hr] at h; exact absurd h (by simp)
    | some b =>
      rw [hr] at h
      cases hrest : mapIdxO (forecastRow res d pIdx) (k + 1) as with
      | none => rw [hrest] at h; exact absurd h (by simp)
      | some bs =>
        rcases List.mem_cons.mp hf with hfa | hfas
        · subst hfa
          simp only [forecastRow] at hr
          rw [getForecastData_time] at hr
          cases hc : convertTime res f.time with
          | none => rw [hc] at hr; exact absurd hr (by simp)
          | some ft => simp [hc]
        · exact mapIdxO_atoi_sound res d pIdx (k + 1) as bs hrest f hfas

theorem itemsFrom_atoi_sound (res : String) :
    ∀ (k : Nat) (ps : List Period) (items : List forecastItem),
      itemsFrom res k ps = some items →
      ∀ p ∈ ps, ∀ f ∈ p.forecasts, (convertTime res f.time).isSome = true
  | _, [], _, _, _, hp, _, _ => absurd hp (List.not_mem_nil _)
  | k, p :: ps, items, h, p', hp', f, hf => by
    unfold itemsFrom at h
    cases hd : parseDateZ p.date with
    | none => rw [hd] at h; exact absurd h (by simp)
    | some d =>
      rw [hd] at h
      dsimp only at h
      cases hm : mapIdxO (forecastRow res d k) 0 p.forecasts with
      | none => rw [hm] at h; exact absurd h (by simp)
      | some l =>
        rw [hm] at h
        cases hrest : itemsFrom res (k + 1) ps with
        | none => rw [hrest] at h; exact absurd h (by simp)
        | some rest =>
          rcases List.mem_cons.mp hp' with hpp | hps
          · subst hpp
            exact mapIdxO_atoi_sound res d k 0 p'.forecasts l hm f hf
          · exact itemsFrom_atoi_sound res (k + 1) ps rest hrest p' hps f hf

/-- C2 corrected: under Daily, an unrecognized timeLabel is silently
normalized through the Hourly branch (a defaulted record is returned, no
error); under ThreeHourly, normalization itself never fails either — but
`getForecastListItems` aborts the whole process (`log.Fatal`, modelled as
`none`) when a timeLabel does not parse as an integer, so a successful
item build implies every label was numeric. -/
theorem C2_amended_silent_fallthrough (f : Forecast) (ps : List Period)
    (items : List forecastItem) :
    (f.time ≠ "Day" → f.time ≠ "Night" →
      getForecastData dailyResolution f = getForecastData threeHourlyResolution f) ∧
    (itemsFrom threeHourlyResolution 0 ps = some items →
      ∀ p ∈ ps, ∀ fc ∈ p.forecasts, (atoi fc.time).isSome = true) := by
  constructor
  · intro h1 h2
    simp [getForecastData, dailyResolution, threeHourlyResolution, h1, h2]
  · intro h p hp fc hfc
    have := itemsFrom_atoi_sound threeHourlyResolution 0 ps items h p hp fc hfc
    rwa [convertTime_threeHourly_isSome] at this

def oddPeriodEx : Period := { date := "2024-01-02Z", forecasts := [{ time := "180" }] }

/-- C2 witness: the amended statement evaluated on a concrete unrecognized
label and a concrete three-hourly period list. -/
theorem C2_amended_silent_fallthrough_witness :
    getForecastData dailyResolution oddLabelEx =
      getForecastData threeHourlyResolution oddLabelEx ∧
    (atoi (Forecast.time { time := "180" })).isSome = true := by
  constructor
  · exact (C2_amended_silent_fallthrough oddLabelEx [] []).1 (by decide) (by decide)
  · exact (C2_amended_silent_fallthrough oddLabelEx [oddPeriodEx]
      [{ title := "Tue, 02 Jan 2024 (03:00)", desc := " | °C | mph" }]).2
      (by decide) oddPeriodEx (by decide) { time := "180" } (by decide)

/-- C3: under Daily the display time is the literal time label; under
ThreeHourly a label parsing as a non-negative integer `mv` (minutes past
midnight) yields `⌊mv / 60⌋` zero-padded to two digits followed by ":00"
(so "180" gives "03:00", "0" gives "00:00", and minutes are truncated to
the hour); the title built by `forecastRow` embeds exactly this converted
time. -/
theorem C3_display_time (t : String) (mv : Int) (res : String) (d : Date)
    (p q : Nat) (f : Forecast) :
    convertTime dailyResolution t = some t ∧
    (atoi t = some mv → 0 ≤ mv →
      convertTime threeHourlyResolution t =
        some (pad2 (toString (mv.toNat / 60)) ++ ":00")) ∧
    (∀ it, forecastRow res d p q f = some it →
      ∃ ft, convertTime res f.time = some ft ∧
        it.title = formatDate d ++ " (" ++ ft ++ ")") := by
  refine ⟨by simp [convertTime, dailyResolution, threeHourlyResolution], ?_, ?_⟩
  · intro ha hnn
    obtain ⟨n, rfl⟩ := Int.eq_ofNat_of_zero_le hnn
    unfold convertTime
    rw [if_pos (by simp), ha]
    show some (fmt02 (Int.tdiv (Int.ofNat n) 60) ++ ":00") = _
    have h2 : fmt02 (Int.tdiv (Int.ofNat n) 60) = pad2 (toString (n / 60)) := by
      show fmt02 ((n / 60 : Nat) : Int) = _
      unfold fmt02
      rw [if_neg (Int.not_lt.mpr (Int.natCast_nonneg _))]
      rfl
    rw [h2]
    have h3 : ((n : Int)).toNat = n := by omega
    rw [h3]
  · intro it hit
    simp only [forecastRow] at hit
    rw [getForecastData_time] at hit
    cases hc : convertTime res f.time with
    | none => rw [hc] at hit; exact absurd hit (by simp)
    | some ft =>
      rw [hc] at hit
      refine ⟨ft, rfl, ?_⟩
      have hit2 : forecastItem.mk (formatDate d ++ " (" ++ ft ++ ")")
          (weatherCodeDesc (getForecastData res f).weatherCode ++ " | " ++
            (getForecastData res f).temperature ++ "°C" ++ " | " ++
            (getForecastData res f).windSpeed ++ "mph") p q = it :=
        Option.some_inj.mp hit
      rw [← hit2]

/-- C3 witness: the display-time theorem evaluated at labels "180", "0",
"150" (truncation) and "Day", and on a concrete item build. -/
theorem C3_display_time_witness :
    convertTime dailyResolution "Day" = some "Day" ∧
    convertTime threeHourlyResolution "180" = some (pad2 (toString (Int.toNat 180 / 60)) ++ ":00") ∧
    convertTime threeHourlyResolution "0" = some (pad2 (toString (Int.toNat 0 / 60)) ++ ":00") ∧
    convertTime threeHourlyResolution "150" = some (pad2 (toString (Int.toNat 150 / 60)) ++ ":00") := by
  refine ⟨(C3_display_time "Day" 0 "" ⟨2024, 1, 2⟩ 0 0 {}).1, ?_, ?_, ?_⟩
  · exact (C3_display_time "180" 180 "" ⟨2024, 1, 2⟩ 0 0 {}).2.1 (by decide) (by decide)
  · exact (C3_display_time "0" 0 "" ⟨2024, 1, 2⟩ 0 0 {}).2.1 (by decide) (by decide)
  · exact (C3_display_time "150" 150 "" ⟨2024, 1, 2⟩ 0 0 {}).2.1 (by decide) (by decide)

/-! ## C4/C5: confirm on empty collections and fetch failures. -/

def failFetch : SiteFetch := fun _ _ => none

def emptySearchState : Model :=
  { textFocused := false, tableFocused := true, tableRows := [] }

/-- C4 counterexample: in the Search state with the table focused and zero
filtered rows, dispatching "enter" is not a no-op — `SelectedRow()[1]` is
evaluated on an empty table, which panics (modelled as `none`); the claimed
outcome (state unchanged, still at Search) does not occur. -/
theorem C4_counterexample :
    Update {} failFetch (Msg.key "enter") emptySearchState = none := by decide

/-- C4 corrected: confirm on an empty collection is not guarded.  In Search
with the table focused and zero rows, and in LocationList with zero items,
"enter" makes the code select out of bounds (`SelectedRow()[1]` on an empty
table, `SelectedItem().(forecastItem)` on a nil selection) and the process
panics, modelled as `none`. -/
theorem C4_amended_confirm_empty_panics (g : Globals) (fetch : SiteFetch)
    (m : Model) :
    (m.textFocused = false → m.tableFocused = true → m.tableRows = [] →
      updateSearch g fetch (Msg.key "enter") m = none) ∧
    (m.listItems = [] → updateLocation fetch (Msg.key "enter") m = none) := by
  constructor
  · intro h1 h2 h3
    simp [updateSearch, textinputUpd, cursorUpd, isCharKey, selectedRow, h1, h2, h3]
  · intro h
    simp [updateLocation, cursorUpd, h]

def emptyListState : Model := { locationChosen := true }

/-- C4 witness: the amended theorem evaluated on concrete empty-collection
states. -/
theorem C4_amended_confirm_empty_panics_witness :
    updateSearch {} failFetch (Msg.key "enter") emptySearchState = none ∧
    updateLocation failFetch (Msg.key "enter") emptyListState = none :=
  ⟨(C4_amended_confirm_empty_panics {} failFetch emptySearchState).1 rfl rfl rfl,
   (C4_amended_confirm_empty_panics {} failFetch emptyListState).2 rfl⟩

def oneRowSearchState : Model :=
  { textFocused := false, tableFocused := true,
    tableRows := [["Aberdeen", "A", "r"]] }

def listStateLoc : Location :=
  { name := "X",
    periods := [{ date := "2024-01-02Z", forecasts := [{ time := "Day" }] }] }

def listState : Model :=
  { locationChosen := true, locationId := "A",
    siteData := { site := { info := { location := listStateLoc } } },
    listItems := [{ title := "t", desc := "d" }] }

/-- C5 counterexample: with a failing fetch collaborator, confirming a
location row in Search does not leave the controller in its prior state
with an error indicator — `getSiteData` calls `log.Fatal`, terminating the
process (`none`); likewise for the resolution toggle in LocationList. -/
theorem C5_counterexample :
    Update {} failFetch (Msg.key "enter") oneRowSearchState = none ∧
    Update {} failFetch (Msg.key "r") listState = none := by
  constructor
  · decide
  · decide

/-- C5 corrected: a fetch failure during the Search→LocationList transition
or the resolution toggle terminates the whole process (`log.Fatal` inside
`getSiteData`, modelled as `none`); the controller does not survive in its
prior state and no error indicator is surfaced (the model's `err` field is
never written).  No partial data is exposed only because the process is
gone. -/
theorem C5_amended_fetch_failure_fatal (g : Globals) (fetch : SiteFetch)
    (m : Model) (row : List String) (id : String) :
    (m.textFocused = false → m.tableFocused = true →
      m.tableRows[m.tableCursor]? = some row →
      row[1]? = some id → fetch id m.forecastResolution = none →
      updateSearch g fetch (Msg.key "enter") m = none) ∧
    (fetch m.locationId
        (if m.forecastResolution = dailyResolution then threeHourlyResolution
         else dailyResolution) = none →
      updateLocation fetch (Msg.key "r") m = none) := by
  constructor
  · intro h1 h2 hrow hid hfetch
    simp [updateSearch, textinputUpd, isCharKey, cursorUpd, selectedRow,
      h1, h2, hrow, hid, hfetch]
  · intro hfetch
    simp [updateLocation, cursorUpd, hfetch]

/-- C5 witness: the amended theorem evaluated on a concrete one-row Search
state and a concrete LocationList state with an always-failing fetch. -/
theorem C5_amended_fetch_failure_fatal_witness :
    updateSearch {} failFetch (Msg.key "enter") oneRowSearchState = none ∧
    updateLocation failFetch (Msg.key "r") listState = none :=
  ⟨(C5_amended_fetch_failure_fatal {} failFetch oneRowSearchState
      ["Aberdeen", "A", "r"] "A").1 rfl rfl (by decide) (by decide) rfl,
   (C5_amended_fetch_failure_fatal {} failFetch listState
      ["Aberdeen", "A", "r"] "A").2 rfl⟩

/-! ## C7: mutual exclusion of the three navigation states. -/

inductive NavigationState where
  | search
  | locationList
  | forecastDetail
  deriving DecidableEq, Repr

/-- The navigation state encoded by the two boolean flags, in the order the
dispatch point tests them. -/
def navState (m : Model) : NavigationState :=
  if m.forecastChosen then .forecastDetail
  else if m.locationChosen then .locationList
  else .search

theorem updateSearch_fc (g : Globals) (fetch : SiteFetch) (msg : Msg)
    (m m' : Model) (h : updateSearch g fetch msg m = some m') :
    m'.forecastChosen = m.forecastChosen := by
  simp only [updateSearch] at h
  repeat' split at h
  all_goals first
    | exact Option.noConfusion h
    | (injection h with h2; subst h2; rfl)

theorem updateLocation_inv (fetch : SiteFetch) (msg : Msg) (m m' : Model)
    (h : updateLocation fetch msg m = some m') (hlc : m.locationChosen = true)
    (hfc : m.forecastChosen = false) :
    m'.forecastChosen = true → m'.locationChosen = true := by
  simp only [updateLocation] at h
  repeat' split at h
  all_goals first
    | exact Option.noConfusion h
    | (injection h with h2; subst h2; intro hx; simp_all)

theorem updateForecast_lc (msg : Msg) (m m' : Model)
    (h : updateForecast msg m = some m') :
    m'.locationChosen = m.locationChosen := by
  simp only [updateForecast] at h
  repeat' split at h
  all_goals first
    | exact Option.noConfusion h
    | (injection h with h2; subst h2; rfl)

theorem dispatch_inv (g : Globals) (fetch : SiteFetch) (msg : Msg)
    (m m' : Model) (h : dispatch g fetch msg m = some m')
    (hm : m.forecastChosen = true → m.locationChosen = true) :
    m'.forecastChosen = true → m'.locationChosen = true := by
  unfold dispatch at h
  split at h
  · rename_i hfc
    intro _
    rw [updateForecast_lc msg m m' h]
    exact hm hfc
  · rename_i hfc
    split at h
    · rename_i hlc
      exact updateLocation_inv fetch msg m m' h hlc (by simpa using hfc)
    · intro hx
      rw [updateSearch_fc g fetch msg m m' h] at hx
      exact absurd hx (by simpa using hfc)

/-- C7: in every state reachable from the initial state, `forecastChosen`
implies `locationChosen` — the boolean pair never encodes an overlapping or
fourth state, so `navState` is well defined as exactly one of Search,
LocationList, ForecastDetail; moreover `Update` routes every non-quit key
through the single dispatch point, which runs only the active state's
handler. -/
theorem C7_mutual_exclusion (g : Globals) (fetch : SiteFetch) (m : Model) :
    (Reachable g fetch m → (m.forecastChosen = true → m.locationChosen = true)) ∧
    (∀ s, s ≠ "ctrl+c" → Update g fetch (Msg.key s) m =
      dispatch g fetch (Msg.key s) m) ∧
    (m.forecastChosen = true → m.locationChosen = true →
      navState m = .forecastDetail) := by
  refine ⟨?_, ?_, ?_⟩
  · intro hr
    induction hr with
    | init => intro hx; exact absurd hx (by simp [initialModel])
    | @step m0 m1 msg hprev hstep ih =>
      cases msg with
      | key s =>
        simp only [Update] at hstep
        split at hstep
        · injection hstep with h2
          subst h2
          exact ih
        · exact dispatch_inv g fetch (Msg.key s) m0 m1 hstep ih
      | windowSize w h =>
        simp only [Update] at hstep
        exact dispatch_inv g fetch (Msg.windowSize w h)
          { m0 with width := w, height := h } m1 hstep ih
  · intro s hs
    simp only [Update]
    rw [if_neg hs]
  · intro hfc _
    simp [navState, hfc]

def detailState : Model := { locationChosen := true, forecastChosen := true }

/-- C7 witness: the invariant and dispatch equations evaluated at the
initial state of empty globals and at a concrete detail-screen state. -/
theorem C7_mutual_exclusion_witness :
    ((initialModel {}).forecastChosen = true →
      (initialModel {}).locationChosen = true) ∧
    Update {} failFetch (Msg.key "esc") (initialModel {}) =
      dispatch {} failFetch (Msg.key "esc") (initialModel {}) ∧
    navState detailState = .forecastDetail :=
  ⟨(C7_mutual_exclusion {} failFetch (initialModel {})).1 Reachable.init,
   (C7_mutual_exclusion {} failFetch (initialModel {})).2.1 "esc" (by decide),
   (C7_mutual_exclusion {} failFetch detailState).2.2 rfl rfl⟩

/-! ## C10: back from LocationList and the subsequent re-fetch. -/

/-- C10 counterexample: dispatching back ("esc") in LocationList flips only
`locationChosen`; the loaded Period data is retained in the model, not
discarded — contradicting "discards the loaded Period/RawForecast data". -/
theorem C10_counterexample :
    updateLocation failFetch (Msg.key "esc") listState =
      some { listState with locationChosen := false } ∧
    ({ listState with locationChosen := false } : Model).siteData =
      listState.siteData ∧
    listState.siteData.site.info.location.periods ≠ [] := by
  refine ⟨by decide, rfl, by decide⟩

/-- C10 corrected: back in LocationList transitions to Search but retains
the previously loaded data unchanged in the model; the retained data is
never reused — a subsequent confirm on a location row always performs a
fresh fetch whose result wholly replaces `siteData` and the item list,
regardless of what was previously held. -/
theorem C10_amended_back_retains_confirm_refetches (g : Globals)
    (fetch : SiteFetch) (m : Model) (row : List String) (id : String)
    (sd : SiteData) (its : List forecastItem) :
    updateLocation fetch (Msg.key "esc") m =
      some { m with locationChosen := false } ∧
    (m.textFocused = false → m.tableFocused = true →
      m.tableRows[m.tableCursor]? = some row →
      row[1]? = some id → fetch id m.forecastResolution = some sd →
      itemsFrom m.forecastResolution 0 sd.site.info.location.periods = some its →
      updateSearch g fetch (Msg.key "enter") m =
        some { m with locationChosen := true, locationId := id,
                      siteData := sd, listItems := its,
                      listTitle := sd.site.info.location.name ++ ", " ++
                        sd.site.info.location.country }) := by
  constructor
  · simp [updateLocation, cursorUpd]
  · intro h1 h2 hrow hid hfetch hitems
    simp [updateSearch, textinputUpd, isCharKey, cursorUpd, selectedRow,
      getForecastListItems, h1, h2, hrow, hid, hfetch, hitems]

def freshSd : SiteData := { site := { info := { location := listStateLoc } } }

def freshFetch : SiteFetch := fun _ _ => some freshSd

def freshItem : forecastItem :=
  { title := "Tue, 02 Jan 2024 (Day)", desc := " | °C | mph" }

/-- C10 witness: the amended theorem evaluated on a concrete LocationList
state and a concrete Search confirm with a succeeding fetch. -/
theorem C10_amended_back_retains_confirm_refetches_witness :
    updateLocation failFetch (Msg.key "esc") listState =
      some { listState with locationChosen := false } ∧
    updateSearch {} freshFetch (Msg.key "enter") oneRowSearchState =
      some { oneRowSearchState with
              locationChosen := true, locationId := "A",
              siteData := freshSd, listItems := [freshItem],
              listTitle := freshSd.site.info.location.name ++ ", " ++
                freshSd.site.info.location.country } :=
  ⟨(C10_amended_back_retains_confirm_refetches {} failFetch listState
      [] "" {} []).1,
   (C10_amended_back_retains_confirm_refetches {} freshFetch
      oneRowSearchState ["Aberdeen", "A", "r"] "A" freshSd [freshItem]).2
      rfl rfl (by decide) (by decide) rfl (by decide)⟩

/-! ## C6: the normalized list enumerates the loaded periods in
period-then-forecast order with position-accurate back-references. -/

/-- The canonical period-then-forecast enumeration of index pairs of a
period sequence, starting at period index `p`. -/
def pairIndices : Nat → List Period → List (Nat × Nat)
  | _, [] => []
  | p, per :: rest =>
    ((List.range per.forecasts.length).map (fun f => (p, f))) ++
      pairIndices (p + 1) rest

theorem forecastRow_indices (res : String) (d : Date) (p q : Nat)
    (f : Forecast) (it : forecastItem) (h : forecastRow res d p q f = some it) :
    it.periodIndex = p ∧ it.forecastIndex = q := by
  simp only [forecastRow] at h
  cases hc : convertTime res (getForecastData res f).time with
  | none => rw [hc] at h; exact absurd h (by simp)
  | some ft =>
    rw [hc] at h
    injection h with h2
    rw [← h2]
    exact ⟨rfl, rfl⟩

theorem mapIdxO_spec (res : String) (d : Date) (p : Nat) :
    ∀ (k : Nat) (fs : List Forecast) (l : List forecastItem),
      mapIdxO (forecastRow res d p) k fs = some l →
      l.map (fun it => (it.periodIndex, it.forecastIndex)) =
        (List.range' k fs.length).map (fun f => (p, f)) ∧
      ∀ it ∈ l, it.periodIndex = p ∧ k ≤ it.forecastIndex ∧
        ∃ f, fs[it.forecastIndex - k]? = some f ∧
          forecastRow res d p it.forecastIndex f = some it
  | k, [], l, h => by
    injection h with h2
    subst h2
    exact ⟨rfl, fun it hit => absurd hit (List.not_mem_nil _)⟩
  | k, a :: as, l, h => by
    unfold mapIdxO at h
    cases hr : forecastRow res d p k a with
    | none => rw [hr] at h; exact absurd h (by simp)
    | some b =>
      rw [hr] at h
      cases hrest : mapIdxO (forecastRow res d p) (k + 1) as with
      | none => rw [hrest] at h; exact absurd h (by simp)
      | some bs =>
        rw [hrest] at h
        injection h with h2
        subst h2
        obtain ⟨hmap, hmem⟩ := mapIdxO_spec res d p (k + 1) as bs hrest
        obtain ⟨hbp, hbf⟩ := forecastRow_indices res d p k a b hr
        constructor
        · simp only [List.map_cons, hmap, List.length_cons, List.range'_succ,
            List.map_cons, hbp, hbf]
        · intro it hit
          rcases List.mem_cons.mp hit with hb | hbs
          · subst hb
            refine ⟨hbp, by omega, a, ?_, ?_⟩
            · rw [hbf]
              simp
            · rw [hbf]
              exact hr
          · obtain ⟨hp', hk', f, hf, hrow⟩ := hmem it hbs
            refine ⟨hp', by omega, f, ?_, hrow⟩
            have hidx : it.forecastIndex - k = (it.forecastIndex - (k + 1)) + 1 := by
              omega
            rw [hidx, List.getElem?_cons_succ]
            exact hf

theorem itemsFrom_spec (res : String) :
    ∀ (k : Nat) (ps : List Period) (items : List forecastItem),
      itemsFrom res k ps = some items →
      items.map (fun it => (it.periodIndex, it.forecastIndex)) =
        pairIndices k ps ∧
      ∀ it ∈ items, k ≤ it.periodIndex ∧
        ∃ per f d, ps[it.periodIndex - k]? = some per ∧
          per.forecasts[it.forecastIndex]? = some f ∧
          parseDateZ per.date = some d ∧
          forecastRow res d it.periodIndex it.forecastIndex f = some it
  | k, [], items, h => by
    injection h with h2
    subst h2
    exact ⟨rfl, fun it hit => absurd hit (List.not_mem_nil _)⟩
  | k, p :: ps, items, h => by
    unfold itemsFrom at h
    cases hd : parseDateZ p.date with
    | none => rw [hd] at h; exact absurd h (by simp)
    | some d =>
      rw [hd] at h
      dsimp only at h
      cases hm : mapIdxO (forecastRow res d k) 0 p.forecasts with
      | none => rw [hm] at h; exact absurd h (by simp)
      | some l =>
        rw [hm] at h
        cases hrest : itemsFrom res (k + 1) ps with
        | none => rw [hrest] at h; exact absurd h (by simp)
        | some rest =>
          rw [hrest] at h
          injection h with h2
          subst h2
          obtain ⟨hmapl, hmeml⟩ := mapIdxO_spec res d k 0 p.forecasts l hm
          obtain ⟨hmapr, hmemr⟩ := itemsFrom_spec res (k + 1) ps rest hrest
          constructor
          · simp only [List.map_append, hmapl, hmapr, pairIndices,
              List.range_eq_range']
          · intro it hit
            rcases List.mem_append.mp hit with hl | hr
            · obtain ⟨hp', _, f, hf, hrow⟩ := hmeml it hl
              rw [Nat.sub_zero] at hf
              refine ⟨by omega, p, f, d, ?_, hf, hd, by rw [hp']; exact hrow⟩
              rw [hp', Nat.sub_self]
              simp
            · obtain ⟨hk', per, f, d', hper, hf, hd', hrow⟩ := hmemr it hr
              refine ⟨by omega, per, f, d', ?_, hf, hd', hrow⟩
              have hidx : it.periodIndex - k = (it.periodIndex - (k + 1)) + 1 := by
                omega
              rw [hidx, List.getElem?_cons_succ]
              exact hper

/-- C6: a successful `getForecastListItems` run produces exactly one item
per `(period, forecast)` pair, in period-then-forecast order — the list of
carried `(periodIndex, forecastIndex)` pairs equals the canonical
enumeration of the loaded period sequence — and every item's pair indexes a
live raw forecast of which the item is the normalization (`forecastRow`
applied to that source element at those positions). -/
theorem C6_items_enumerate_periods (res : String) (periods : List Period)
    (items : List forecastItem)
    (h : getForecastListItemsOf res periods = some items) :
    items.map (fun it => (it.periodIndex, it.forecastIndex)) =
      pairIndices 0 periods ∧
    ∀ it ∈ items, ∃ per f d, periods[it.periodIndex]? = some per ∧
      per.forecasts[it.forecastIndex]? = some f ∧
      parseDateZ per.date = some d ∧
      forecastRow res d it.periodIndex it.forecastIndex f = some it := by
  obtain ⟨hmap, hmem⟩ := itemsFrom_spec res 0 periods items h
  refine ⟨hmap, fun it hit => ?_⟩
  obtain ⟨_, per, f, d, hper, hf, hd, hrow⟩ := hmem it hit
  rw [Nat.sub_zero] at hper
  exact ⟨per, f, d, hper, hf, hd, hrow⟩

def twoPeriodsEx : List Period :=
  [{ date := "2024-01-02Z", forecasts := [{ time := "Day" }, { time := "Night" }] },
   { date := "2024-01-03Z", forecasts := [{ time := "Day" }] }]

/-- C6 witness: the enumeration theorem evaluated on a concrete two-period
sequence (two forecasts then one). -/
theorem C6_items_enumerate_periods_witness :
    List.map (fun it => (it.periodIndex, it.forecastIndex))
      ((getForecastListItemsOf dailyResolution twoPeriodsEx).getD []) =
      pairIndices 0 twoPeriodsEx :=
  (C6_items_enumerate_periods dailyResolution twoPeriodsEx
    ((getForecastListItemsOf dailyResolution twoPeriodsEx).getD [])
    (by decide)).1

/-! ## Order facts about the Go string comparison. -/

theorem char_toNat_inj {a b : Char} (h : a.toNat = b.toNat) : a = b :=
  Char.eq_of_val_eq (UInt32.ext h)

theorem goListLE_total : ∀ a b : List Char,
    goListLE a b = true ∨ goListLE b a = true
  | [], _ => Or.inl rfl
  | _ :: _, [] => Or.inr rfl
  | x :: xs, y :: ys => by
    by_cases h1 : x.toNat < y.toNat
    · left; simp [goListLE, h1]
    · by_cases h2 : y.toNat < x.toNat
      · right; simp [goListLE, h2]
      · rcases goListLE_total xs ys with h | h
        · left; simp [goListLE, h1, h2, h]
        · right; simp [goListLE, h1, h2, h]

theorem goListLE_trans : ∀ a b c : List Char,
    goListLE a b = true → goListLE b c = true → goListLE a c = true
  | [], _, _, _, _ => rfl
  | _ :: _, [], _, hab, _ => by simp [goListLE] at hab
  | _ :: _, _ :: _, [], _, hbc => by simp [goListLE] at hbc
  | x :: xs, y :: ys, z :: zs, hab, hbc => by
    have hxy : ¬ y.toNat < x.toNat := by
      intro hlt
      simp only [goListLE, if_neg (by omega : ¬ x.toNat < y.toNat),
        if_pos hlt] at hab
      exact Bool.noConfusion hab
    have hyz : ¬ z.toNat < y.toNat := by
      intro hlt
      simp only [goListLE, if_neg (by omega : ¬ y.toNat < z.toNat),
        if_pos hlt] at hbc
      exact Bool.noConfusion hbc
    simp only [goListLE]
    by_cases h5 : x.toNat < z.toNat
    · rw [if_pos h5]
    · rw [if_neg h5, if_neg (by omega)]
      have hx_eq : x.toNat = y.toNat := by omega
      have hy_eq : y.toNat = z.toNat := by omega
      simp only [goListLE, if_neg (by omega : ¬ x.toNat < y.toNat),
        if_neg hxy] at hab
      simp only [goListLE, if_neg (by omega : ¬ y.toNat < z.toNat),
        if_neg hyz] at hbc
      exact goListLE_trans xs ys zs hab hbc

theorem goListLE_antisymm : ∀ a b : List Char,
    goListLE a b = true → goListLE b a = true → a = b
  | [], [], _, _ => rfl
  | [], _ :: _, _, hba => by simp [goListLE] at hba
  | _ :: _, [], hab, _ => by simp [goListLE] at hab
  | x :: xs, y :: ys, hab, hba => by
    have hxy : ¬ y.toNat < x.toNat := by
      intro hlt
      simp only [goListLE, if_neg (by omega : ¬ x.toNat < y.toNat),
        if_pos hlt] at hab
      exact Bool.noConfusion hab
    have hyx : ¬ x.toNat < y.toNat := by
      intro hlt
      simp only [goListLE, if_neg (by omega : ¬ y.toNat < x.toNat),
        if_pos hlt] at hba
      exact Bool.noConfusion hba
    simp only [goListLE, if_neg hyx, if_neg hxy] at hab
    simp only [goListLE, if_neg hxy, if_neg hyx] at hba
    rw [char_toNat_inj (by omega : x.toNat = y.toNat),
      goListLE_antisymm xs ys hab hba]

theorem string_ext_of_toList {a b : String} (h : a.toList = b.toList) :
    a = b := by
  cases a
  cases b
  simp_all [String.toList]

instance : IsTotal String goStrLE :=
  ⟨fun a b => goListLE_total a.toList b.toList⟩

instance : IsTrans String goStrLE :=
  ⟨fun a b c => goListLE_trans a.toList b.toList c.toList⟩

instance : IsAntisymm String goStrLE :=
  ⟨fun _ _ hab hba => string_ext_of_toList (goListLE_antisymm _ _ hab hba)⟩

instance : IsTotal (List String) nameLE :=
  ⟨fun a b => goListLE_total (rowName a).toList (rowName b).toList⟩

instance : IsTrans (List String) nameLE :=
  ⟨fun a b c => goListLE_trans (rowName a).toList (rowName b).toList
    (rowName c).toList⟩

instance : IsTotal rank distLE :=
  ⟨fun a b => Nat.le_total a.distance b.distance⟩

instance : IsTrans rank distLE :=
  ⟨fun _ _ _ hab hbc => Nat.le_trans hab hbc⟩

/-! ## C9: the sorted location rows. -/

def dupLocs : List location :=
  [{ id := "1", name := "A", region := "r1" }, { id := "2", name := "A", region := "r2" }]

/-- C9 counterexample: the sitelist rows are sorted with Go's `sort.Sort`,
which guarantees only a sorted permutation (it is documented as not
stable).  For two locations sharing the name "A", the tie-swapped output
satisfies everything `sort.Sort` guarantees while violating "ties kept in
original fetch order" (the stable result is `rowsOf dupLocs`). -/
theorem C9_counterexample :
    sortContract (dupLocs.map rowOf) [["A", "2", "r2"], ["A", "1", "r1"]] ∧
    [["A", "2", "r2"], ["A", "1", "r1"]] ≠ rowsOf dupLocs := by
  refine ⟨⟨by decide, ?_⟩, by decide⟩
  decide

/-- C9 corrected: every output `sort.Sort` may produce for the fetched
locations is a permutation of one row per `Location` with names
nondecreasing under case-sensitive ordinal comparison; the order of rows
with equal names is not specified (the sort is not stable).  The
executable model `rowsOf` is one witness of the contract. -/
theorem C9_amended_sorted_rows (ls : List location)
    (out : List (List String)) (h : sortContract (ls.map rowOf) out) :
    out.length = ls.length ∧ List.Pairwise nameLE out ∧
    out.Perm (ls.map rowOf) ∧ sortContract (ls.map rowOf) (rowsOf ls) := by
  refine ⟨?_, h.2, h.1, ?_, ?_⟩
  · rw [h.1.length_eq, List.length_map]
  · exact List.perm_insertionSort nameLE (ls.map rowOf)
  · exact List.sorted_insertionSort nameLE (ls.map rowOf)

/-- C9 witness: the amended theorem evaluated on the duplicate-name fetch
with the stable output. -/
theorem C9_amended_sorted_rows_witness :
    (rowsOf dupLocs).length = dupLocs.length ∧
    List.Pairwise nameLE (rowsOf dupLocs) ∧
    (rowsOf dupLocs).Perm (dupLocs.map rowOf) ∧
    sortContract (dupLocs.map rowOf) (rowsOf dupLocs) :=
  C9_amended_sorted_rows dupLocs (rowsOf dupLocs) ⟨by decide, by decide⟩

/-! ## C8: the fuzzy filter. -/

theorem rankFindFoldAux_mem (q : String) :
    ∀ (i : Nat) (ts : List String) (rk : rank), rk ∈ rankFindFoldAux q i ts →
      i ≤ rk.originalIndex ∧ ∃ t, ts[rk.originalIndex - i]? = some t ∧
        matchFold q.toList t.toList = true ∧ rk.target = t
  | _, [], _, h => absurd h (List.not_mem_nil _)
  | i, t :: ts, rk, h => by
    unfold rankFindFoldAux at h
    by_cases hm : matchFold q.toList t.toList
    · rw [if_pos hm] at h
      rcases List.mem_cons.mp h with hrk | hrest
      · subst hrk
        exact ⟨Nat.le_refl i, t, by simp, hm, rfl⟩
      · obtain ⟨hle, t', ht', hm', htar⟩ :=
          rankFindFoldAux_mem q (i + 1) ts rk hrest
        refine ⟨by omega, t', ?_, hm', htar⟩
        have hidx : rk.originalIndex - i = (rk.originalIndex - (i + 1)) + 1 := by
          omega
        rw [hidx, List.getElem?_cons_succ]
        exact ht'
    · rw [if_neg hm] at h
      obtain ⟨hle, t', ht', hm', htar⟩ := rankFindFoldAux_mem q (i + 1) ts rk h
      refine ⟨by omega, t', ?_, hm', htar⟩
      have hidx : rk.originalIndex - i = (rk.originalIndex - (i + 1)) + 1 := by
        omega
      rw [hidx, List.getElem?_cons_succ]
      exact ht'

/-- The name column of the sorted rows coincides pointwise with the sorted
placename list: both are sorted images of the same fetched names. -/
theorem rowsOf_names (ls : List location) :
    (rowsOf ls).map rowName = placenamesOf ls := by
  have hperm1 : ((rowsOf ls).map rowName).Perm (ls.map location.name) := by
    have h := (List.perm_insertionSort nameLE (ls.map rowOf)).map rowName
    rwa [List.map_map] at h
  have hperm2 : (placenamesOf ls).Perm (ls.map location.name) :=
    List.perm_insertionSort goStrLE (ls.map location.name)
  have hsorted1 : List.Pairwise goStrLE ((rowsOf ls).map rowName) :=
    List.Pairwise.map rowName (fun _ _ hab => hab)
      (List.sorted_insertionSort nameLE (ls.map rowOf))
  have hsorted2 : List.Pairwise goStrLE (placenamesOf ls) :=
    List.sorted_insertionSort goStrLE (ls.map location.name)
  exact List.eq_of_perm_of_sorted (hperm1.trans hperm2.symm) hsorted1 hsorted2

theorem rowsOf_length (ls : List location) :
    (rowsOf ls).length = (placenamesOf ls).length := by
  unfold rowsOf placenamesOf
  rw [(List.perm_insertionSort nameLE (ls.map rowOf)).length_eq,
    (List.perm_insertionSort goStrLE (ls.map location.name)).length_eq,
    List.length_map, List.length_map]

/-- C8: filtering with the empty query returns all rows in the stored
sorted order; for a non-empty query every returned row's name contains the
query's characters as a case-insensitive subsequence (so no non-matching
row is included), and the returned rows are exactly the match ranks in the
library's rank order (ranks sorted by ascending Levenshtein distance,
mapped back through the stored rows).  The row set itself is a fixed input,
never mutated. -/
theorem C8_fuzzy_filter (ls : List location) (q : String) :
    filterRows "" (placenamesOf ls) (rowsOf ls) = rowsOf ls ∧
    (0 < q.length →
      (∀ r ∈ filterRows q (placenamesOf ls) (rowsOf ls),
        matchFold q.toList (rowName r).toList = true) ∧
      List.Pairwise distLE (sortedRanks q (placenamesOf ls)) ∧
      filterRows q (placenamesOf ls) (rowsOf ls) =
        (sortedRanks q (placenamesOf ls)).map
          (fun rk => (rowsOf ls).getD rk.originalIndex [])) := by
  refine ⟨rfl, fun hq => ⟨?_, ?_, ?_⟩⟩
  · intro r hr
    simp only [filterRows, if_pos hq] at hr
    obtain ⟨rk, hrk, hrw⟩ := List.mem_map.mp hr
    have hrk' : rk ∈ rankFindFold q (placenamesOf ls) :=
      (List.perm_insertionSort distLE _).mem_iff.mp hrk
    obtain ⟨_, t, hts, hmatch, _⟩ :=
      rankFindFoldAux_mem q 0 (placenamesOf ls) rk hrk'
    rw [Nat.sub_zero] at hts
    have hidx : rk.originalIndex < (placenamesOf ls).length := by
      by_contra hge
      rw [List.getElem?_eq_none (by omega)] at hts
      exact Option.noConfusion hts
    have hidx' : rk.originalIndex < (rowsOf ls).length := by
      rw [rowsOf_length]; exact hidx
    have hname : rowName r = t := by
      have h9 : (rowsOf ls)[rk.originalIndex]? = some r := by
        rw [← hrw, List.getD_eq_getElem _ _ hidx']
        exact List.getElem?_eq_getElem hidx'
      have h7 : ((rowsOf ls).map rowName)[rk.originalIndex]? = some t := by
        rw [rowsOf_names]
        exact hts
      rw [List.getElem?_map, h9] at h7
      exact Option.some_inj.mp h7
    rw [hname]
    exact hmatch
  · exact List.sorted_insertionSort distLE _
  · simp only [filterRows, if_pos hq]

def abdnBristol : List location :=
  [{ id := "A", name := "Aberdeen", region := "r1" },
   { id := "B", name := "Bristol", region := "r2" }]

/-- C8 witness: the filter theorem evaluated on the two-location index
{Aberdeen, Bristol} with query "bri". -/
theorem C8_fuzzy_filter_witness :
    filterRows "" (placenamesOf dupLocs) (rowsOf dupLocs) = rowsOf dupLocs ∧
    matchFold "bri".toList
      (rowName (["Bristol", "B", "r2"] : List String)).toList = true ∧
    List.Pairwise distLE (sortedRanks "bri" (placenamesOf abdnBristol)) := by
  refine ⟨(C8_fuzzy_filter dupLocs "bri").1, ?_, ?_⟩
  · exact ((C8_fuzzy_filter abdnBristol "bri").2 (by decide)).1
      ["Bristol", "B", "r2"] (by decide)
  · exact ((C8_fuzzy_filter abdnBristol "bri").2 (by decide)).2.1

end Fc
